import Mathlib

/-!
Verification of the in-memory data store of the `registry` repository
(`crates/server/src/datastore/memory.rs`).

The store keeps all state in `indexmap::IndexMap`s behind a single lock; each
`async` method acquires the lock and runs to completion, so every operation is
modelled as a pure function from the guarded `State` to a new `State` and a
result.  Identifiers (`LogId`, `RecordId`, `AnyHash`, `PackageName`) and the
record payloads (`ProtoEnvelope<R>`) are opaque content hashes / opaque
envelopes in the source; they are modelled as `Nat`.  The external
`validate(state, record)` functions of `warg_protocol` are out of scope for
the store and are passed in as function arguments.  A Rust panic (a failed
`assert!`, an `unwrap()` of `None`, or an out-of-bounds index) is modelled
by the explicit `Outcome.panic` result.
-/

namespace Registry

/-- Opaque content hash identifying a log (`warg_protocol::registry::LogId`). -/
abbrev LogId := Nat

/-- Opaque content hash identifying a record within a log. -/
abbrev RecordId := Nat

/-- Global registry position (`RegistryIndex = usize`). -/
abbrev RegistryIndex := Nat

/-- Global registry length (`RegistryLen = usize`). -/
abbrev RegistryLen := Nat

/-- Opaque content digest (`warg_crypto::hash::AnyHash`). -/
abbrev AnyHash := Nat

/-- Opaque package name. -/
abbrev PackageName := Nat

/-- Opaque signed operator record envelope (`ProtoEnvelope<OperatorRecord>`). -/
abbrev OperatorEnvelope := Nat

/-- Opaque signed package record envelope (`ProtoEnvelope<PackageRecord>`). -/
abbrev PackageEnvelope := Nat

/-- Opaque accumulated operator log state (`operator::LogState`); `Default`
in the source, modelled with default value `0`. -/
abbrev OperatorLogState := Nat

/-- Opaque accumulated package log state (`package::LogState`). -/
abbrev PackageLogState := Nat

/-- `indexmap::IndexMap`: an insertion-ordered key-value map.  Modelled as the
list of its entries in insertion order; `insert` on an existing key replaces
the value in place (keeping the position), otherwise the new pair is appended
at the end. -/
abbrev IndexMap (α β : Type) : Type := List (α × β)

namespace IndexMap

/-- `IndexMap::get`: first (and, by the map invariant, only) value stored
under the key. -/
def get? {α β : Type} [DecidableEq α] : IndexMap α β → α → Option β
  | [], _ => none
  | (k, v) :: rest, key => if k = key then some v else get? rest key

/-- `IndexMap::insert`: returns the updated map together with the previous
value under the key (`None` if the key was absent). -/
def insert {α β : Type} [DecidableEq α] : IndexMap α β → α → β → IndexMap α β × Option β
  | [], key, val => ([(key, val)], none)
  | (k, v) :: rest, key, val =>
    if k = key then ((k, val) :: rest, some v)
    else
      let r := insert rest key val
      ((k, v) :: r.1, r.2)

/-- `IndexMap::contains_key`. -/
def containsKey {α β : Type} [DecidableEq α] (m : IndexMap α β) (key : α) : Bool :=
  (IndexMap.get? m key).isSome

end IndexMap

/-- One committed entry of a log (`Entry<R>` in the source). -/
structure Entry (R : Type) where
  registry_index : RegistryIndex
  record_content : R
deriving DecidableEq, Repr

/-- A per-identity log: accumulated state plus committed entries (`Log<S, R>`). -/
structure Log (S R : Type) where
  state : S
  entries : List (Entry R)
deriving DecidableEq, Repr

/-- `Log::default()`: default state and no entries. -/
def Log.init : Log Nat Nat := ⟨0, []⟩

/-- A validated record reference (`Record` in the source): position in the
log's entries and position in the registry's log. -/
structure ValidatedRecord where
  index : Nat
  registry_index : RegistryIndex
deriving DecidableEq, Repr

/-- `PendingRecord`: the envelope slot is an `Option` that is `take`n when
the record leaves the pending state; package records also track the set of
missing content digests (an `IndexSet<AnyHash>`, modelled as its list of
elements in order). -/
inductive PendingRecord where
  | operator (record : Option OperatorEnvelope)
  | package (record : Option PackageEnvelope) (missing : List AnyHash)
deriving DecidableEq, Repr

/-- `RejectedRecord`: the retained envelope and the human-readable reason. -/
inductive RejectedRecord where
  | operator (record : OperatorEnvelope) (reason : String)
  | package (record : PackageEnvelope) (reason : String)
deriving DecidableEq, Repr

/-- `RecordStatus`: the per-(log, record) state machine. -/
inductive RecordStatus where
  | pending (r : PendingRecord)
  | rejected (r : RejectedRecord)
  | validated (r : ValidatedRecord)
deriving DecidableEq, Repr

/-- A signed, timestamped checkpoint (`SerdeEnvelope<TimestampedCheckpoint>`):
the store only ever reads `checkpoint.log_length`; signature and timestamp
are opaque. -/
structure TimestampedCheckpoint where
  log_length : RegistryLen
  payload : Nat
deriving DecidableEq, Repr

/-- `LogLeaf`: reverse pointer from a global registry position. -/
structure LogLeaf where
  log_id : LogId
  record_id : RecordId
deriving DecidableEq, Repr

/-- The guarded `State` of `MemoryDataStore`. -/
structure State where
  operators : IndexMap LogId (Log OperatorLogState OperatorEnvelope)
  packages : IndexMap LogId (Log PackageLogState PackageEnvelope)
  package_names : IndexMap LogId (Option PackageName)
  checkpoints : IndexMap RegistryLen TimestampedCheckpoint
  records : IndexMap LogId (IndexMap RecordId RecordStatus)
  log_leafs : IndexMap RegistryIndex LogLeaf
deriving DecidableEq, Repr

/-- `State::default()`. -/
def State.empty : State := ⟨[], [], [], [], [], []⟩

/-- The error kinds of `DataStoreError` reachable from the modelled
operations.  A validation failure is wrapped into the store error carrying
the validator's message as its description. -/
inductive DataStoreError where
  | logNotFound (id : LogId)
  | recordNotFound (id : RecordId)
  | recordNotPending (id : RecordId)
  | checkpointNotFound (len : RegistryLen)
  | logLeafNotFound (idx : RegistryIndex)
  | validationFailed (msg : String)
deriving DecidableEq, Repr

/-- The description (`to_string()`) of a store error; for a wrapped
validation failure this carries the external validator's message. -/
def DataStoreError.description : DataStoreError → String
  | .validationFailed m => m
  | .logNotFound _ => "log not found"
  | .recordNotFound _ => "record not found"
  | .recordNotPending _ => "record is not in a pending state"
  | .checkpointNotFound _ => "checkpoint not found"
  | .logLeafNotFound _ => "log leaf not found"

/-- The result of one store operation: a value, a typed error returned to the
caller, or a Rust panic (failed `assert!` / `unwrap()` / out-of-bounds). -/
inductive Outcome (α : Type) where
  | ok (val : α)
  | err (e : DataStoreError)
  | panic
deriving DecidableEq, Repr

/-- Replace the first occurrence of `d` in the list by `b`
(helper for `swapRemove`). -/
def replaceFirst : List AnyHash → AnyHash → AnyHash → List AnyHash
  | [], _, _ => []
  | x :: xs, d, b => if x = d then b :: xs else x :: replaceFirst xs d b

/-- `IndexSet::swap_remove`: remove `d` by moving the last element of the set
into its slot and shrinking the set by one; no-op when `d` is absent. -/
def swapRemove (l : List AnyHash) (d : AnyHash) : List AnyHash :=
  if d ∈ l then
    match l.getLast? with
    | none => []
    | some b => (replaceFirst l d b).dropLast
  else l

/-- `store_operator_record`: inserts a fresh Pending entry under
`(log_id, record_id)` and then `assert!`s that no previous entry existed
(the assertion failure is the `.panic` outcome; the insertion has already
happened when the assertion runs). -/
def store_operator_record (s : State) (log_id : LogId) (record_id : RecordId)
    (record : OperatorEnvelope) : State × Outcome Unit :=
  let inner := (IndexMap.get? s.records log_id).getD []
  let r := IndexMap.insert inner record_id
    (RecordStatus.pending (.operator (some record)))
  let s' := { s with records := (IndexMap.insert s.records log_id r.1).1 }
  if r.2.isSome then (s', .panic) else (s', .ok ())

/-- `store_package_record`: as the operator variant, but also records the
package name association and the set of missing content digests.  (The
`debug_assert!` that `missing` is a subset of the record's own content
digests checks an accessor of the opaque envelope and is a caller-checked
precondition; it is not modelled.) -/
def store_package_record (s : State) (log_id : LogId) (package_name : PackageName)
    (record_id : RecordId) (record : PackageEnvelope) (missing : List AnyHash) :
    State × Outcome Unit :=
  let inner := (IndexMap.get? s.records log_id).getD []
  let r := IndexMap.insert inner record_id
    (RecordStatus.pending (.package (some record) missing))
  let s' := { s with
    records := (IndexMap.insert s.records log_id r.1).1,
    package_names := (IndexMap.insert s.package_names log_id (some package_name)).1 }
  if r.2.isSome then (s', .panic) else (s', .ok ())

/-- `reject_operator_record`: requires a Pending operator record; `take`s the
envelope out of the slot (an empty slot would be an `unwrap` panic) and
replaces the status with Rejected carrying the reason. -/
def reject_operator_record (s : State) (log_id : LogId) (record_id : RecordId)
    (reason : String) : State × Outcome Unit :=
  match IndexMap.get? s.records log_id with
  | none => (s, .err (.logNotFound log_id))
  | some inner =>
    match IndexMap.get? inner record_id with
    | none => (s, .err (.recordNotFound record_id))
    | some status =>
      match status with
      | .pending (.operator rec) =>
        match rec with
        | none => (s, .panic)
        | some record =>
          let status' := RecordStatus.rejected (.operator record reason)
          let inner' := (IndexMap.insert inner record_id status').1
          ({ s with records := (IndexMap.insert s.records log_id inner').1 }, .ok ())
      | _ => (s, .err (.recordNotPending record_id))

/-- `reject_package_record`. -/
def reject_package_record (s : State) (log_id : LogId) (record_id : RecordId)
    (reason : String) : State × Outcome Unit :=
  match IndexMap.get? s.records log_id with
  | none => (s, .err (.logNotFound log_id))
  | some inner =>
    match IndexMap.get? inner record_id with
    | none => (s, .err (.recordNotFound record_id))
    | some status =>
      match status with
      | .pending (.package rec _missing) =>
        match rec with
        | none => (s, .panic)
        | some record =>
          let status' := RecordStatus.rejected (.package record reason)
          let inner' := (IndexMap.insert inner record_id status').1
          ({ s with records := (IndexMap.insert s.records log_id inner').1 }, .ok ())
      | _ => (s, .err (.recordNotPending record_id))

/-- `commit_operator_record`: requires a Pending operator record; `take`s the
envelope, fetches the log via `entry(..).or_default()` (inserting a default
log if absent — this happens before validation, so it persists even on a
validation failure), and runs the external `validate` on the log's current
state and the envelope.  On success it replaces the log state, appends an
entry at the next local index, flips the status to Validated, and inserts a
`LogLeaf` at `registry_index`; on failure it flips the status to Rejected
carrying the error's description and returns the error. -/
def commit_operator_record
    (validate : OperatorLogState → OperatorEnvelope → Except String OperatorLogState)
    (s : State) (log_id : LogId) (record_id : RecordId)
    (registry_index : RegistryIndex) : State × Outcome Unit :=
  match IndexMap.get? s.records log_id with
  | none => (s, .err (.logNotFound log_id))
  | some inner =>
    match IndexMap.get? inner record_id with
    | none => (s, .err (.recordNotFound record_id))
    | some status =>
      match status with
      | .pending (.operator rec) =>
        match rec with
        | none => (s, .panic)
        | some record =>
          let log := (IndexMap.get? s.operators log_id).getD Log.init
          match validate log.state record with
          | .ok st =>
            let index := log.entries.length
            let log' : Log OperatorLogState OperatorEnvelope :=
              ⟨st, log.entries ++ [⟨registry_index, record⟩]⟩
            let inner' := (IndexMap.insert inner record_id
              (RecordStatus.validated ⟨index, registry_index⟩)).1
            ({ s with
               operators := (IndexMap.insert s.operators log_id log').1,
               records := (IndexMap.insert s.records log_id inner').1,
               log_leafs := (IndexMap.insert s.log_leafs registry_index
                 ⟨log_id, record_id⟩).1 }, .ok ())
          | .error msg =>
            let e := DataStoreError.validationFailed msg
            let inner' := (IndexMap.insert inner record_id
              (RecordStatus.rejected (.operator record e.description))).1
            ({ s with
               operators := (IndexMap.insert s.operators log_id log).1,
               records := (IndexMap.insert s.records log_id inner').1 }, .err e)
      | _ => (s, .err (.recordNotPending record_id))

/-- `commit_package_record`. -/
def commit_package_record
    (validate : PackageLogState → PackageEnvelope → Except String PackageLogState)
    (s : State) (log_id : LogId) (record_id : RecordId)
    (registry_index : RegistryIndex) : State × Outcome Unit :=
  match IndexMap.get? s.records log_id with
  | none => (s, .err (.logNotFound log_id))
  | some inner =>
    match IndexMap.get? inner record_id with
    | none => (s, .err (.recordNotFound record_id))
    | some status =>
      match status with
      | .pending (.package rec _missing) =>
        match rec with
        | none => (s, .panic)
        | some record =>
          let log := (IndexMap.get? s.packages log_id).getD Log.init
          match validate log.state record with
          | .ok st =>
            let index := log.entries.length
            let log' : Log PackageLogState PackageEnvelope :=
              ⟨st, log.entries ++ [⟨registry_index, record⟩]⟩
            let inner' := (IndexMap.insert inner record_id
              (RecordStatus.validated ⟨index, registry_index⟩)).1
            ({ s with
               packages := (IndexMap.insert s.packages log_id log').1,
               records := (IndexMap.insert s.records log_id inner').1,
               log_leafs := (IndexMap.insert s.log_leafs registry_index
                 ⟨log_id, record_id⟩).1 }, .ok ())
          | .error msg =>
            let e := DataStoreError.validationFailed msg
            let inner' := (IndexMap.insert inner record_id
              (RecordStatus.rejected (.package record e.description))).1
            ({ s with
               packages := (IndexMap.insert s.packages log_id log).1,
               records := (IndexMap.insert s.records log_id inner').1 }, .err e)
      | _ => (s, .err (.recordNotPending record_id))

/-- `is_content_missing`: for a Pending package record, whether the digest is
still in the missing set; operator records have no content, so `false`. -/
def is_content_missing (s : State) (log_id : LogId) (record_id : RecordId)
    (digest : AnyHash) : Outcome Bool :=
  match IndexMap.get? s.records log_id with
  | none => .err (.logNotFound log_id)
  | some inner =>
    match IndexMap.get? inner record_id with
    | none => .err (.recordNotFound record_id)
    | some status =>
      match status with
      | .pending (.operator _) => .ok false
      | .pending (.package _ missing) => .ok (digest ∈ missing)
      | _ => .err (.recordNotPending record_id)

/-- `set_content_present`: for a Pending package record, removes the digest
from the missing set (`IndexSet::swap_remove`) and returns whether the set is
now empty; returns `false` immediately when the set was already empty.
Operator records have no content, so `false`. -/
def set_content_present (s : State) (log_id : LogId) (record_id : RecordId)
    (digest : AnyHash) : State × Outcome Bool :=
  match IndexMap.get? s.records log_id with
  | none => (s, .err (.logNotFound log_id))
  | some inner =>
    match IndexMap.get? inner record_id with
    | none => (s, .err (.recordNotFound record_id))
    | some status =>
      match status with
      | .pending (.operator _) => (s, .ok false)
      | .pending (.package rec missing) =>
        if missing.isEmpty then (s, .ok false)
        else
          let missing' := swapRemove missing digest
          let inner' := (IndexMap.insert inner record_id
            (RecordStatus.pending (.package rec missing'))).1
          ({ s with records := (IndexMap.insert s.records log_id inner').1 },
            .ok missing'.isEmpty)
      | _ => (s, .err (.recordNotPending record_id))

/-- `store_checkpoint`: inserts the checkpoint keyed by its `log_length`
(the `checkpoint_id` argument is ignored by the memory store). -/
def store_checkpoint (s : State) (_checkpoint_id : AnyHash)
    (ts_checkpoint : TimestampedCheckpoint) : State :=
  { s with checkpoints :=
      (IndexMap.insert s.checkpoints ts_checkpoint.log_length ts_checkpoint).1 }

/-- `get_latest_checkpoint`: `checkpoints.values().last().unwrap()` — panics
when no checkpoint has ever been stored. -/
def get_latest_checkpoint (s : State) : Outcome TimestampedCheckpoint :=
  match s.checkpoints.getLast? with
  | none => .panic
  | some p => .ok p.2

/-- `get_checkpoint`: lookup by exact `log_length` key. -/
def get_checkpoint (s : State) (log_length : RegistryLen) :
    Outcome TimestampedCheckpoint :=
  match IndexMap.get? s.checkpoints log_length with
  | none => .err (.checkpointNotFound log_length)
  | some c => .ok c

/-- `PublishedProtoEnvelope<R>`: an envelope together with the registry index
it was committed at. -/
structure PublishedEnvelope (R : Type) where
  envelope : R
  registry_index : RegistryIndex
deriving DecidableEq, Repr

/-- `get_operator_records`: entries of one log restricted to
`registry_index < registry_log_length`, paginated from the `since` cursor.
`since` resolves to `record.index + 1` when the named record exists and is
Validated; in every other case pagination starts from the beginning. -/
def get_operator_records (s : State) (log_id : LogId)
    (registry_log_length : RegistryLen) (since : Option RecordId) (limit : Nat) :
    Outcome (List (PublishedEnvelope OperatorEnvelope)) :=
  match IndexMap.get? s.operators log_id with
  | none => .err (.logNotFound log_id)
  | some log =>
    if ¬ (IndexMap.containsKey s.checkpoints registry_log_length) then
      .err (.checkpointNotFound registry_log_length)
    else
      let start_log_idx :=
        match since with
        | some sinceId =>
          match (IndexMap.get? s.records log_id).bind
              (fun inner => IndexMap.get? inner sinceId) with
          | some (.validated record) => record.index + 1
          | _ => 0
        | none => 0
      .ok ((((log.entries.drop start_log_idx).takeWhile
              (fun entry => entry.registry_index < registry_log_length)).map
              (fun entry => PublishedEnvelope.mk entry.record_content
                entry.registry_index)).take limit)

/-- `get_package_records`. -/
def get_package_records (s : State) (log_id : LogId)
    (registry_log_length : RegistryLen) (since : Option RecordId) (limit : Nat) :
    Outcome (List (PublishedEnvelope PackageEnvelope)) :=
  match IndexMap.get? s.packages log_id with
  | none => .err (.logNotFound log_id)
  | some log =>
    if ¬ (IndexMap.containsKey s.checkpoints registry_log_length) then
      .err (.checkpointNotFound registry_log_length)
    else
      let start_log_idx :=
        match since with
        | some sinceId =>
          match (IndexMap.get? s.records log_id).bind
              (fun inner => IndexMap.get? inner sinceId) with
          | some (.validated record) => record.index + 1
          | _ => 0
        | none => 0
      .ok ((((log.entries.drop start_log_idx).takeWhile
              (fun entry => entry.registry_index < registry_log_length)).map
              (fun entry => PublishedEnvelope.mk entry.record_content
                entry.registry_index)).take limit)

/-- The `published_length` computed inside both `get_record` variants: the
`log_length` of the last stored checkpoint, `0` (`unwrap_or_default`) when no
checkpoint exists. -/
def published_length (s : State) : RegistryLen :=
  ((s.checkpoints.getLast?).map (fun p => p.2.log_length)).getD 0

/-- The caller-facing record status of `datastore::RecordStatus`. -/
inductive ViewStatus where
  | pending
  | rejected (reason : String)
  | validated
  | published
deriving DecidableEq, Repr

/-- The caller-facing record view (`datastore::Record<R>`). -/
structure RecordView (R : Type) where
  status : ViewStatus
  envelope : R
  registry_index : Option RegistryIndex
deriving DecidableEq, Repr

/-- `get_operator_record`: resolves the stored status into a caller-facing
view.  A Validated record is reported Published exactly when its registry
index is below the `log_length` of the last stored checkpoint
(`unwrap_or_default()` makes that length `0` when no checkpoint exists); the
envelope is read back from the log's entries (`log.entries[r.index]`, whose
out-of-bounds access would panic).  A package record found under the id is
reported as `RecordNotFound` by this operator variant. -/
def get_operator_record (s : State) (log_id : LogId) (record_id : RecordId) :
    Outcome (RecordView OperatorEnvelope) :=
  match IndexMap.get? s.records log_id with
  | none => .err (.logNotFound log_id)
  | some inner =>
    match IndexMap.get? inner record_id with
    | none => .err (.recordNotFound record_id)
    | some status =>
      match status with
      | .pending (.operator rec) =>
        match rec with
        | some record => .ok ⟨.pending, record, none⟩
        | none => .panic
      | .rejected (.operator record reason) =>
        .ok ⟨.rejected reason, record, none⟩
      | .validated r =>
        match IndexMap.get? s.operators log_id with
        | none => .err (.logNotFound log_id)
        | some log =>
          match log.entries.get? r.index with
          | none => .panic
          | some entry =>
            .ok ⟨if r.registry_index < published_length s then .published
                 else .validated,
                 entry.record_content, some r.registry_index⟩
      | _ => .err (.recordNotFound record_id)

/-- `get_package_record`. -/
def get_package_record (s : State) (log_id : LogId) (record_id : RecordId) :
    Outcome (RecordView PackageEnvelope) :=
  match IndexMap.get? s.records log_id with
  | none => .err (.logNotFound log_id)
  | some inner =>
    match IndexMap.get? inner record_id with
    | none => .err (.recordNotFound record_id)
    | some status =>
      match status with
      | .pending (.package rec _missing) =>
        match rec with
        | some record => .ok ⟨.pending, record, none⟩
        | none => .panic
      | .rejected (.package record reason) =>
        .ok ⟨.rejected reason, record, none⟩
      | .validated r =>
        match IndexMap.get? s.packages log_id with
        | none => .err (.logNotFound log_id)
        | some log =>
          match log.entries.get? r.index with
          | none => .panic
          | some entry =>
            .ok ⟨if r.registry_index < published_length s then .published
                 else .validated,
                 entry.record_content, some r.registry_index⟩
      | _ => .err (.recordNotFound record_id)

/-- Width of `usize` on the 64-bit targets the server builds for. -/
def USIZE : Nat := 2 ^ 64

/-- The lookup loop of `get_log_leafs_starting_with_registry_index`:
look up consecutive registry indices, stopping at the first missing one. -/
def collectLeafs (m : IndexMap RegistryIndex LogLeaf) :
    RegistryIndex → Nat → List (RegistryIndex × LogLeaf)
  | _, 0 => []
  | start, n + 1 =>
    match IndexMap.get? m start with
    | some log_leaf => (start, log_leaf) :: collectLeafs m (start + 1) n
    | none => []

/-- `get_log_leafs_starting_with_registry_index`: clamps `limit` to
`log_leafs.len() - starting_index` — a `usize` subtraction, which wraps in
release builds when `starting_index` exceeds the number of leaves (and would
overflow-panic in debug builds) — then collects consecutive leaves from
`starting_index`, stopping at the first missing index. -/
def get_log_leafs_starting_with_registry_index (s : State)
    (starting_index : RegistryIndex) (limit : Nat) :
    Outcome (List (RegistryIndex × LogLeaf)) :=
  let avail := (s.log_leafs.length + USIZE - starting_index) % USIZE
  let limit := if limit > avail then avail else limit
  .ok (collectLeafs s.log_leafs starting_index limit)

/-- `get_log_leafs_with_registry_index`: look up every requested registry
index, failing with `LogLeafNotFound` at the first index that was never
committed. -/
def get_log_leafs_with_registry_index (s : State) (entries : List RegistryIndex) :
    Outcome (List LogLeaf) :=
  match entries with
  | [] => .ok []
  | entry :: rest =>
    match IndexMap.get? s.log_leafs entry with
    | none => .err (.logLeafNotFound entry)
    | some log_leaf =>
      match get_log_leafs_with_registry_index s rest with
      | .ok leafs => .ok (log_leaf :: leafs)
      | e => e

/-- A concrete store used by closed witnesses: one (empty) operator log and
one (empty) package log under `LogId` 1, and one checkpoint at length 1. -/
def c9state : State :=
  { operators := [(1, ⟨0, []⟩)], packages := [(1, ⟨0, []⟩)], package_names := [],
    checkpoints := [(1, ⟨1, 0⟩)], records := [], log_leafs := [] }

/-- A concrete store used by closed witnesses: record 2 of operator log 1
and record 2 of package log 1 are Validated at registry index 4, the logs
hold the corresponding entries, and the latest checkpoint has length 6. -/
def c3state : State :=
  { operators := [(1, ⟨5, [⟨4, 99⟩]⟩)], packages := [(1, ⟨5, [⟨4, 88⟩]⟩)],
    package_names := [], checkpoints := [(6, ⟨6, 0⟩)],
    records := [(1, [(2, .validated ⟨0, 4⟩)])], log_leafs := [] }

/-- The page that `get_records` produces from a log's entries, beginning at
local index `start`: consecutive entries strictly below the registry cutoff,
capped at `limit`. -/
def paginate (entries : List (Entry Nat)) (start : Nat)
    (registry_log_length : RegistryLen) (limit : Nat) :
    List (PublishedEnvelope Nat) :=
  (((entries.drop start).takeWhile
      (fun entry => entry.registry_index < registry_log_length)).map
      (fun entry => PublishedEnvelope.mk entry.record_content
        entry.registry_index)).take limit

/-- A concrete store used by closed witnesses: one operator and one package
log under `LogId` 9 with four committed entries at registry indices
10, 12, 15, 20 and a checkpoint at length 16 (the spec's pagination
example). -/
def c5state : State :=
  { operators := [(9, ⟨4, [⟨10, 11⟩, ⟨12, 12⟩, ⟨15, 13⟩, ⟨20, 14⟩]⟩)],
    packages := [(9, ⟨4, [⟨10, 21⟩, ⟨12, 22⟩, ⟨15, 23⟩, ⟨20, 24⟩]⟩)],
    package_names := [], checkpoints := [(16, ⟨16, 0⟩)],
    records := [(9, [(1, .validated ⟨0, 10⟩), (2, .validated ⟨1, 12⟩),
      (3, .validated ⟨2, 15⟩), (4, .validated ⟨3, 20⟩)])],
    log_leafs := [] }

/-- Call `set_content_present` once for each digest in the list, in order,
threading the store state; returns the final state together with the result
of the last call. -/
def setAllPresent (s : State) (log_id : LogId) (record_id : RecordId) :
    List AnyHash → State × Outcome Bool
  | [] => (s, .ok false)
  | [d] => set_content_present s log_id record_id d
  | d :: rest =>
    setAllPresent (set_content_present s log_id record_id d).1 log_id record_id rest

/-- A sequence of `store_checkpoint` calls, applied in order. -/
def storeCheckpoints (s : State) (cps : List TimestampedCheckpoint) : State :=
  cps.foldl (fun s c => store_checkpoint s 0 c) s

/-- A concrete store used by closed witnesses: three committed leaves at the
contiguous registry indices 0, 1, 2. -/
def c8state : State :=
  { operators := [], packages := [], package_names := [], checkpoints := [],
    records := [], log_leafs := [(0, ⟨1, 2⟩), (1, ⟨1, 3⟩), (2, ⟨4, 5⟩)] }

/-! ### Properties of `IndexMap` operations -/

@[simp] theorem IndexMap.get?_nil {α β : Type} [DecidableEq α] (key : α) :
    IndexMap.get? ([] : IndexMap α β) key = none := rfl

@[simp] theorem IndexMap.get?_cons {α β : Type} [DecidableEq α] (k : α) (v : β)
    (rest : IndexMap α β) (key : α) :
    IndexMap.get? ((k, v) :: rest : IndexMap α β) key
      = if k = key then some v else IndexMap.get? rest key := rfl

theorem IndexMap.insert_snd {α β : Type} [DecidableEq α] (m : IndexMap α β) (key : α) (val : β) :
    (IndexMap.insert m key val).2 = IndexMap.get? m key := by
  induction m with
  | nil => rfl
  | cons p rest ih =>
    obtain ⟨k, v⟩ := p
    by_cases h : k = key <;> simp [insert, get?, h, ih]

theorem IndexMap.get?_insert_self {α β : Type} [DecidableEq α] (m : IndexMap α β) (key : α) (val : β) :
    IndexMap.get? (IndexMap.insert m key val).1 key = some val := by
  induction m with
  | nil => simp [insert, get?]
  | cons p rest ih =>
    obtain ⟨k, v⟩ := p
    by_cases h : k = key <;> simp [insert, get?, h, ih]

theorem IndexMap.get?_insert_ne {α β : Type} [DecidableEq α] (m : IndexMap α β) (key : α) (val : β)
    (key' : α) (h : key ≠ key') :
    IndexMap.get? (IndexMap.insert m key val).1 key' = IndexMap.get? m key' := by
  induction m with
  | nil => simp [insert, get?, h]
  | cons p rest ih =>
    obtain ⟨k, v⟩ := p
    by_cases hk : k = key
    · subst hk
      simp [insert, get?, h]
    · by_cases hk' : k = key'
      · subst hk'
        simp [insert, get?, hk, ih]
      · simp [insert, get?, hk, hk', ih]

theorem IndexMap.insert_of_get?_none {α β : Type} [DecidableEq α] (m : IndexMap α β) (key : α) (val : β)
    (h : IndexMap.get? m key = none) :
    (IndexMap.insert m key val).1 = m ++ [(key, val)] := by
  induction m with
  | nil => rfl
  | cons p rest ih =>
    obtain ⟨k, v⟩ := p
    by_cases hk : k = key
    · simp [get?, hk] at h
    · simp [get?, hk] at h
      simp [insert, hk, ih h]

/-! ### Properties of `swapRemove` (`IndexSet::swap_remove`) -/

theorem replaceFirst_decomp {l : List AnyHash} {d : AnyHash} (h : d ∈ l) (b : AnyHash) :
    ∃ A B, l = A ++ d :: B ∧ d ∉ A ∧ replaceFirst l d b = A ++ b :: B := by
  induction l with
  | nil => cases h
  | cons x xs ih =>
    by_cases hx : x = d
    · subst hx
      exact ⟨[], xs, rfl, by simp, by simp [replaceFirst]⟩
    · have hmem : d ∈ xs := by
        cases h with
        | head => exact absurd rfl hx
        | tail _ h => exact h
      obtain ⟨A, B, hl, hA, hr⟩ := ih hmem
      refine ⟨x :: A, B, by simp [hl], ?_, by simp [replaceFirst, hx, hr]⟩
      intro hc
      rcases List.mem_cons.mp hc with h1 | h2
      · exact hx h1.symm
      · exact hA h2

/-- `swapRemove` removes the same element as `List.erase`; only the internal
order of the remaining elements differs. -/
theorem swapRemove_perm {l : List AnyHash} {d : AnyHash} (h : d ∈ l) :
    List.Perm (swapRemove l d) (l.erase d) := by
  have hne : l ≠ [] := List.ne_nil_of_mem h
  obtain ⟨A, B, hl, hA, hr⟩ := replaceFirst_decomp h (l.getLast hne)
  have hgl : l.getLast? = some (l.getLast hne) := List.getLast?_eq_getLast l hne
  have hsw : swapRemove l d = (replaceFirst l d (l.getLast hne)).dropLast := by
    simp only [swapRemove, if_pos h, hgl]
  rcases List.eq_nil_or_concat B with hB | ⟨B', bl, hB⟩
  · subst hB
    have hb : l.getLast hne = d := by
      subst hl
      exact List.getLast_concat A
    rw [hsw, hr, hb]
    have herase : l.erase d = A := by
      rw [hl, List.erase_append_right _ (by simpa using hA)]
      simp
    rw [herase, List.dropLast_concat]
  · rw [List.concat_eq_append] at hB
    subst hB
    have hb : l.getLast hne = bl := by
      have : l = (A ++ d :: B') ++ [bl] := by simp [hl]
      ·   subst this
          exact List.getLast_concat _
    have herase : l.erase d = A ++ (B' ++ [bl]) := by
      rw [hl, List.erase_append_right _ (by simpa using hA), List.erase_cons_head]
    rw [hsw, hr, hb, herase, List.dropLast_append_cons,
      List.dropLast_cons_of_ne_nil (by simp), List.dropLast_concat]
    exact List.Perm.append_left A (List.perm_append_singleton bl B').symm

theorem mem_swapRemove {l : List AnyHash} {d : AnyHash} (hnd : l.Nodup) (hd : d ∈ l)
    (x : AnyHash) : x ∈ swapRemove l d ↔ x ∈ l ∧ x ≠ d := by
  rw [(swapRemove_perm hd).mem_iff, hnd.mem_erase_iff]
  tauto

theorem nodup_swapRemove {l : List AnyHash} {d : AnyHash} (hnd : l.Nodup) (hd : d ∈ l) :
    (swapRemove l d).Nodup :=
  ((swapRemove_perm hd).nodup_iff).mpr (hnd.erase d)

theorem swapRemove_perm_of_perm {cur rest : List AnyHash} {d : AnyHash}
    (hp : List.Perm cur (d :: rest)) : List.Perm (swapRemove cur d) rest := by
  have hd : d ∈ cur := hp.mem_iff.mpr (List.Mem.head _)
  have h2 : List.Perm (cur.erase d) ((d :: rest).erase d) := hp.erase d
  rw [List.erase_cons_head] at h2
  exact (swapRemove_perm hd).trans h2

theorem swapRemove_length {l : List AnyHash} {d : AnyHash} (hd : d ∈ l) :
    (swapRemove l d).length = l.length - 1 := by
  rw [(swapRemove_perm hd).length_eq, List.length_erase_of_mem hd]

theorem IndexMap.insert_ne_nil {α β : Type} [DecidableEq α] (m : IndexMap α β)
    (key : α) (val : β) : (IndexMap.insert m key val).1 ≠ [] := by
  cases m with
  | nil => simp [insert]
  | cons p rest =>
    obtain ⟨k, v⟩ := p
    by_cases h : k = key <;> simp [insert, h]

/-! ### Claim theorems -/

/-- C10: `get_latest_checkpoint` is partial at the public interface — it
panics (unwraps an empty collection) exactly when no checkpoint has ever
been stored, and never returns a `CheckpointNotFound` (or any other) error;
after any successful `store_checkpoint` call it cannot panic. -/
theorem c10_get_latest_checkpoint_panics_when_empty (s : State) :
    (get_latest_checkpoint s = .panic ↔ s.checkpoints = []) ∧
    (∀ e, get_latest_checkpoint s ≠ .err e) ∧
    (∀ cid c, ∃ c', get_latest_checkpoint (store_checkpoint s cid c) = .ok c') := by
  refine ⟨?_, ?_, ?_⟩
  · cases hgl : s.checkpoints.getLast? with
    | none =>
      simp only [get_latest_checkpoint, hgl]
      simpa using List.getLast?_eq_none_iff.mp hgl
    | some p =>
      simp only [get_latest_checkpoint, hgl]
      constructor
      · intro h
        cases h
      · intro h
        rw [h] at hgl
        cases hgl
  · intro e
    cases hgl : s.checkpoints.getLast? <;> simp [get_latest_checkpoint, hgl]
  · intro cid c
    cases hgl : (store_checkpoint s cid c).checkpoints.getLast? with
    | none =>
      have : (store_checkpoint s cid c).checkpoints = [] :=
        List.getLast?_eq_none_iff.mp hgl
      exact absurd this (IndexMap.insert_ne_nil _ _ _)
    | some p =>
      exact ⟨p.2, by simp [get_latest_checkpoint, hgl]⟩

/-- Closed witness for `c10_get_latest_checkpoint_panics_when_empty`: on the empty
store the call panics, and after one `store_checkpoint` it returns a value. -/
theorem c10_witness :
    get_latest_checkpoint State.empty = .panic ∧
    get_latest_checkpoint State.empty ≠ .err (.checkpointNotFound 0) ∧
    (∃ c', get_latest_checkpoint (store_checkpoint State.empty 0 ⟨5, 1⟩) = .ok c') :=
  ⟨(c10_get_latest_checkpoint_panics_when_empty State.empty).1.mpr rfl,
   (c10_get_latest_checkpoint_panics_when_empty State.empty).2.1 (.checkpointNotFound 0),
   (c10_get_latest_checkpoint_panics_when_empty State.empty).2.2 0 ⟨5, 1⟩⟩

/-- C9: `get_operator_records` and `get_package_records` fail with
`CheckpointNotFound` whenever the supplied `registry_log_length` is not
exactly the `log_length` key of some stored checkpoint, even when the log
exists; when it is such a key, they succeed. -/
theorem c9_get_records_requires_exact_checkpoint (s : State) (log_id : LogId)
    (len : RegistryLen) (since : Option RecordId) (limit : Nat) :
    ((IndexMap.get? s.operators log_id).isSome = true →
       IndexMap.containsKey s.checkpoints len = false →
       get_operator_records s log_id len since limit = .err (.checkpointNotFound len)) ∧
    ((IndexMap.get? s.operators log_id).isSome = true →
       IndexMap.containsKey s.checkpoints len = true →
       ∃ l, get_operator_records s log_id len since limit = .ok l) ∧
    ((IndexMap.get? s.packages log_id).isSome = true →
       IndexMap.containsKey s.checkpoints len = false →
       get_package_records s log_id len since limit = .err (.checkpointNotFound len)) ∧
    ((IndexMap.get? s.packages log_id).isSome = true →
       IndexMap.containsKey s.checkpoints len = true →
       ∃ l, get_package_records s log_id len since limit = .ok l) := by
  refine ⟨?_, ?_, ?_, ?_⟩ <;> intro hlog hcp
  all_goals
    rw [Option.isSome_iff_exists] at hlog
    obtain ⟨log, hlog⟩ := hlog
  · simp [get_operator_records, hlog, hcp]
  · simp [get_operator_records, hlog, hcp]
  · simp [get_package_records, hlog, hcp]
  · simp [get_package_records, hlog, hcp]

/-- Closed witness for `c9_get_records_requires_exact_checkpoint`: in
`c9state` (logs exist, only checkpoint key is 1) the arbitrary cutoff 5 is
rejected with `CheckpointNotFound` and the exact key 1 is accepted, for both
variants. -/
theorem c9_witness :
    get_operator_records c9state 1 5 none 10 = .err (.checkpointNotFound 5) ∧
    (∃ l, get_operator_records c9state 1 1 none 10 = .ok l) ∧
    get_package_records c9state 1 5 none 10 = .err (.checkpointNotFound 5) ∧
    (∃ l, get_package_records c9state 1 1 none 10 = .ok l) :=
  ⟨(c9_get_records_requires_exact_checkpoint c9state 1 5 none 10).1 (by decide) (by decide),
   (c9_get_records_requires_exact_checkpoint c9state 1 1 none 10).2.1 (by decide) (by decide),
   (c9_get_records_requires_exact_checkpoint c9state 1 5 none 10).2.2.1 (by decide) (by decide),
   (c9_get_records_requires_exact_checkpoint c9state 1 1 none 10).2.2.2 (by decide) (by decide)⟩

/-- C4: submitting a second record under an already-used
`(log_id, record_id)` pair hits the `assert!(prev.is_none())` and panics —
it never silently overwrites the first entry and returns success.  This
holds for both submission variants, whatever status the existing record is
in. -/
theorem c4_duplicate_submission_never_succeeds (s : State) (log_id : LogId)
    (record_id : RecordId) (st : RecordStatus)
    (h : IndexMap.get? ((IndexMap.get? s.records log_id).getD []) record_id = some st) :
    (∀ record, (store_operator_record s log_id record_id record).2 = .panic) ∧
    (∀ name record missing,
       (store_package_record s log_id name record_id record missing).2 = .panic) := by
  constructor
  · intro record
    simp [store_operator_record, IndexMap.insert_snd, h]
  · intro name record missing
    simp [store_package_record, IndexMap.insert_snd, h]

/-- Closed witness for `c4_duplicate_submission_never_succeeds`: after one
successful submission, resubmitting under the same ids panics. -/
theorem c4_witness :
    (store_operator_record (store_operator_record State.empty 1 2 3).1 1 2 9).2 = .panic ∧
    (store_package_record (store_operator_record State.empty 1 2 3).1 1 7 2 8 [5]).2
      = .panic :=
  ⟨(c4_duplicate_submission_never_succeeds (store_operator_record State.empty 1 2 3).1
      1 2 (.pending (.operator (some 3))) (by decide)).1 9,
   (c4_duplicate_submission_never_succeeds (store_operator_record State.empty 1 2 3).1
      1 2 (.pending (.operator (some 3))) (by decide)).2 7 8 [5]⟩

theorem IndexMap.get?_append {α β : Type} [DecidableEq α] (m m' : IndexMap α β) (key : α) :
    IndexMap.get? (m ++ m') key
      = match IndexMap.get? m key with
        | some v => some v
        | none => IndexMap.get? m' key := by
  induction m with
  | nil => simp
  | cons p rest ih =>
    obtain ⟨k, v⟩ := p
    by_cases h : k = key <;> simp [IndexMap.get?, h, ih]

theorem storeCheckpoints_checkpoints (cps : List TimestampedCheckpoint) (s : State) :
    (storeCheckpoints s cps).checkpoints
      = cps.foldl (fun m c => (IndexMap.insert m c.log_length c).1) s.checkpoints := by
  induction cps generalizing s with
  | nil => rfl
  | cons c rest ih =>
    simp only [storeCheckpoints, List.foldl_cons] at *
    exact ih (store_checkpoint s 0 c)

theorem foldl_insert_fresh (cps : List TimestampedCheckpoint) :
    ∀ m : IndexMap RegistryLen TimestampedCheckpoint,
      (∀ c ∈ cps, IndexMap.get? m c.log_length = none) →
      (cps.map TimestampedCheckpoint.log_length).Pairwise (· ≠ ·) →
      cps.foldl (fun m c => (IndexMap.insert m c.log_length c).1) m
        = m ++ cps.map (fun c => (c.log_length, c)) := by
  induction cps with
  | nil => simp
  | cons c rest ih =>
    intro m habs hpw
    have h1 : (IndexMap.insert m c.log_length c).1 = m ++ [(c.log_length, c)] :=
      IndexMap.insert_of_get?_none _ _ _ (habs c (List.mem_cons_self c rest))
    simp only [List.foldl_cons, h1]
    rw [ih (m ++ [(c.log_length, c)]) ?_ ?_]
    · simp
    · intro c' hc'
      rw [IndexMap.get?_append, habs c' (List.mem_cons_of_mem c hc')]
      have hne : c.log_length ≠ c'.log_length :=
        (List.pairwise_cons.mp hpw).1 c'.log_length (List.mem_map_of_mem _ hc')
      simp [IndexMap.get?, hne]
    · exact (List.pairwise_cons.mp hpw).2

/-- C7: from an initially checkpoint-free store, any non-empty sequence of
`store_checkpoint` calls whose `log_length`s are strictly increasing leaves
`get_latest_checkpoint` returning the checkpoint of the most recent call —
"latest" is insertion order. -/
theorem c7_latest_checkpoint_is_last_stored (s : State)
    (cps : List TimestampedCheckpoint) (hempty : s.checkpoints = [])
    (hne : cps ≠ [])
    (hinc : List.Chain' (· < ·) (cps.map TimestampedCheckpoint.log_length)) :
    get_latest_checkpoint (storeCheckpoints s cps) = .ok (cps.getLast hne) := by
  have hpw : (cps.map TimestampedCheckpoint.log_length).Pairwise (· < ·) :=
    List.chain'_iff_pairwise.mp hinc
  have hck : (storeCheckpoints s cps).checkpoints
      = cps.map (fun c => (c.log_length, c)) := by
    rw [storeCheckpoints_checkpoints, hempty,
      foldl_insert_fresh cps [] (fun c _ => rfl) (hpw.imp ne_of_lt)]
    simp
  have hgl : (cps.map (fun c => (c.log_length, c))).getLast?
      = some ((cps.getLast hne).log_length, cps.getLast hne) := by
    rw [List.getLast?_map, List.getLast?_eq_getLast cps hne]
    rfl
  simp only [get_latest_checkpoint, hck, hgl]

/-- Closed witness for `c7_latest_checkpoint_is_last_stored`: storing
checkpoints with lengths 3 then 10 on an empty store makes the latest the
one with length 10. -/
theorem c7_witness :
    get_latest_checkpoint (storeCheckpoints State.empty [⟨3, 0⟩, ⟨10, 1⟩])
      = .ok ⟨10, 1⟩ :=
  c7_latest_checkpoint_is_last_stored State.empty [⟨3, 0⟩, ⟨10, 1⟩] rfl
    (by decide) (by simp [List.chain'_cons])

/-- C2: after submitting a fresh record and rejecting it with `reason`,
`get_record` returns Rejected carrying exactly that reason and the original
envelope, and every later reject or commit of the same record fails with
`RecordNotPending` and leaves the store (hence the Rejected status)
unchanged — the Pending → Rejected transition is terminal.  Stated for both
the operator and the package variants. -/
theorem c2_reject_is_terminal (s : State) (log_id : LogId) (record_id : RecordId)
    (env : Nat) (reason : String) (name : PackageName) (missing : List AnyHash)
    (h : IndexMap.get? ((IndexMap.get? s.records log_id).getD []) record_id = none) :
    ((store_operator_record s log_id record_id env).2 = .ok () ∧
     ∃ s2, reject_operator_record (store_operator_record s log_id record_id env).1
             log_id record_id reason = (s2, .ok ()) ∧
       get_operator_record s2 log_id record_id = .ok ⟨.rejected reason, env, none⟩ ∧
       IndexMap.get? ((IndexMap.get? s2.records log_id).getD []) record_id
         = some (.rejected (.operator env reason)) ∧
       (∀ reason2, reject_operator_record s2 log_id record_id reason2
          = (s2, .err (.recordNotPending record_id))) ∧
       (∀ v ri, commit_operator_record v s2 log_id record_id ri
          = (s2, .err (.recordNotPending record_id)))) ∧
    ((store_package_record s log_id name record_id env missing).2 = .ok () ∧
     ∃ s2, reject_package_record
             (store_package_record s log_id name record_id env missing).1
             log_id record_id reason = (s2, .ok ()) ∧
       get_package_record s2 log_id record_id = .ok ⟨.rejected reason, env, none⟩ ∧
       IndexMap.get? ((IndexMap.get? s2.records log_id).getD []) record_id
         = some (.rejected (.package env reason)) ∧
       (∀ reason2, reject_package_record s2 log_id record_id reason2
          = (s2, .err (.recordNotPending record_id))) ∧
       (∀ v ri, commit_package_record v s2 log_id record_id ri
          = (s2, .err (.recordNotPending record_id)))) := by
  have hr2o : (IndexMap.insert ((IndexMap.get? s.records log_id).getD []) record_id
      (RecordStatus.pending (.operator (some env)))).2 = none := by
    rw [IndexMap.insert_snd]; exact h
  have hr2p : (IndexMap.insert ((IndexMap.get? s.records log_id).getD []) record_id
      (RecordStatus.pending (.package (some env) missing))).2 = none := by
    rw [IndexMap.insert_snd]; exact h
  constructor
  · -- operator chain
    have hstore : store_operator_record s log_id record_id env
        = ({ s with records := (IndexMap.insert s.records log_id
              (IndexMap.insert ((IndexMap.get? s.records log_id).getD []) record_id
                (RecordStatus.pending (.operator (some env)))).1).1 }, .ok ()) := by
      simp [store_operator_record, hr2o]
    refine ⟨by rw [hstore], ?_⟩
    rw [hstore]
    set I1 := (IndexMap.insert ((IndexMap.get? s.records log_id).getD []) record_id
      (RecordStatus.pending (.operator (some env)))).1 with hI1
    set R1 := (IndexMap.insert s.records log_id I1).1 with hR1
    have hA : IndexMap.get? R1 log_id = some I1 := IndexMap.get?_insert_self ..
    have hB : IndexMap.get? I1 record_id
        = some (RecordStatus.pending (.operator (some env))) := IndexMap.get?_insert_self ..
    set I2 := (IndexMap.insert I1 record_id
      (RecordStatus.rejected (.operator env reason))).1 with hI2
    set R2 := (IndexMap.insert R1 log_id I2).1 with hR2
    have hC : IndexMap.get? R2 log_id = some I2 := IndexMap.get?_insert_self ..
    have hD : IndexMap.get? I2 record_id
        = some (RecordStatus.rejected (.operator env reason)) := IndexMap.get?_insert_self ..
    refine ⟨{ s with records := R2 }, ?_, ?_, ?_, ?_, ?_⟩
    · simp [reject_operator_record, hA, hB, hR2, hI2]
    · simp [get_operator_record, hC, hD]
    · simp [hC, hD]
    · intro reason2
      simp [reject_operator_record, hC, hD]
    · intro v ri
      simp [commit_operator_record, hC, hD]
  · -- package chain
    have hstore : store_package_record s log_id name record_id env missing
        = ({ s with records := (IndexMap.insert s.records log_id
                     (IndexMap.insert ((IndexMap.get? s.records log_id).getD [])
                       record_id
                       (RecordStatus.pending (.package (some env) missing))).1).1,
                    package_names :=
                     (IndexMap.insert s.package_names log_id (some name)).1 },
           .ok ()) := by
      simp [store_package_record, hr2p]
    refine ⟨by rw [hstore], ?_⟩
    rw [hstore]
    set I1 := (IndexMap.insert ((IndexMap.get? s.records log_id).getD []) record_id
      (RecordStatus.pending (.package (some env) missing))).1 with hI1
    set R1 := (IndexMap.insert s.records log_id I1).1 with hR1
    have hA : IndexMap.get? R1 log_id = some I1 := IndexMap.get?_insert_self ..
    have hB : IndexMap.get? I1 record_id
        = some (RecordStatus.pending (.package (some env) missing)) :=
      IndexMap.get?_insert_self ..
    set I2 := (IndexMap.insert I1 record_id
      (RecordStatus.rejected (.package env reason))).1 with hI2
    set R2 := (IndexMap.insert R1 log_id I2).1 with hR2
    have hC : IndexMap.get? R2 log_id = some I2 := IndexMap.get?_insert_self ..
    have hD : IndexMap.get? I2 record_id
        = some (RecordStatus.rejected (.package env reason)) := IndexMap.get?_insert_self ..
    refine ⟨{ s with records := R2, package_names :=
                (IndexMap.insert s.package_names log_id (some name)).1 },
       ?_, ?_, ?_, ?_, ?_⟩
    · simp [reject_package_record, hA, hB, hR2, hI2]
    · simp [get_package_record, hC, hD]
    · simp [hC, hD]
    · intro reason2
      simp [reject_package_record, hC, hD]
    · intro v ri
      simp [commit_package_record, hC, hD]

/-- Closed witness for `c2_reject_is_terminal`: submit then reject with
reason "bad" on the empty store; the view is Rejected "bad" with the
original envelope and later reject/commit calls fail `RecordNotPending`. -/
theorem c2_witness :
    (store_operator_record State.empty 1 2 3).2 = .ok () ∧
    (store_package_record State.empty 1 7 2 3 [5]).2 = .ok () ∧
    (∃ s2, reject_operator_record (store_operator_record State.empty 1 2 3).1 1 2 "bad"
        = (s2, .ok ()) ∧
      get_operator_record s2 1 2 = .ok ⟨.rejected "bad", 3, none⟩ ∧
      reject_operator_record s2 1 2 "again" = (s2, .err (.recordNotPending 2)) ∧
      commit_operator_record (fun st e => .ok (st + e)) s2 1 2 9
        = (s2, .err (.recordNotPending 2))) := by
  obtain ⟨⟨ho1, s2, ho2, ho3, _, ho5, ho6⟩, hp1, _⟩ :=
    c2_reject_is_terminal State.empty 1 2 3 "bad" 7 [5] (by decide)
  exact ⟨ho1, hp1, s2, ho2, ho3, ho5 "again", ho6 _ 9⟩

/-- C1: committing a Pending record runs the external `validate` on the
log's current state (default-initialised if the log does not exist yet) and
the pending envelope.  On success it replaces the Log State with the
validator's result, appends a Log Entry at the next local index carrying
`registry_index`, sets the status to Validated (recording that local index
and `registry_index`), and inserts a LogLeaf `(log_id, record_id)` at
`registry_index`.  On failure it sets the status to Rejected carrying the
validation error's description and also returns that error.  Stated for
both the operator and the package variants. -/
theorem c1_commit_runs_validate_with_dual_effect (s : State) (log_id : LogId)
    (record_id : RecordId) (registry_index : RegistryIndex)
    (inner : IndexMap RecordId RecordStatus)
    (hinner : IndexMap.get? s.records log_id = some inner) :
    (∀ env, IndexMap.get? inner record_id
        = some (.pending (.operator (some env))) →
      (∀ v st, v ((IndexMap.get? s.operators log_id).getD Log.init).state env
            = .ok st →
         ∃ s', commit_operator_record v s log_id record_id registry_index
             = (s', .ok ()) ∧
           IndexMap.get? s'.operators log_id
             = some ⟨st, ((IndexMap.get? s.operators log_id).getD Log.init).entries
                 ++ [⟨registry_index, env⟩]⟩ ∧
           (∃ inner', IndexMap.get? s'.records log_id = some inner' ∧
              IndexMap.get? inner' record_id = some (.validated
                ⟨((IndexMap.get? s.operators log_id).getD Log.init).entries.length,
                 registry_index⟩)) ∧
           IndexMap.get? s'.log_leafs registry_index = some ⟨log_id, record_id⟩) ∧
      (∀ v msg, v ((IndexMap.get? s.operators log_id).getD Log.init).state env
            = .error msg →
         ∃ s', commit_operator_record v s log_id record_id registry_index
             = (s', .err (.validationFailed msg)) ∧
           (∃ inner', IndexMap.get? s'.records log_id = some inner' ∧
              IndexMap.get? inner' record_id = some (.rejected (.operator env
                (DataStoreError.validationFailed msg).description))))) ∧
    (∀ env missing, IndexMap.get? inner record_id
        = some (.pending (.package (some env) missing)) →
      (∀ v st, v ((IndexMap.get? s.packages log_id).getD Log.init).state env
            = .ok st →
         ∃ s', commit_package_record v s log_id record_id registry_index
             = (s', .ok ()) ∧
           IndexMap.get? s'.packages log_id
             = some ⟨st, ((IndexMap.get? s.packages log_id).getD Log.init).entries
                 ++ [⟨registry_index, env⟩]⟩ ∧
           (∃ inner', IndexMap.get? s'.records log_id = some inner' ∧
              IndexMap.get? inner' record_id = some (.validated
                ⟨((IndexMap.get? s.packages log_id).getD Log.init).entries.length,
                 registry_index⟩)) ∧
           IndexMap.get? s'.log_leafs registry_index = some ⟨log_id, record_id⟩) ∧
      (∀ v msg, v ((IndexMap.get? s.packages log_id).getD Log.init).state env
            = .error msg →
         ∃ s', commit_package_record v s log_id record_id registry_index
             = (s', .err (.validationFailed msg)) ∧
           (∃ inner', IndexMap.get? s'.records log_id = some inner' ∧
              IndexMap.get? inner' record_id = some (.rejected (.package env
                (DataStoreError.validationFailed msg).description))))) := by
  constructor
  · intro env hrec
    set L := (IndexMap.get? s.operators log_id).getD Log.init with hL
    constructor
    · intro v st hv
      refine ⟨{ s with
                operators := (IndexMap.insert s.operators log_id
                  ⟨st, L.entries ++ [⟨registry_index, env⟩]⟩).1,
                records := (IndexMap.insert s.records log_id
                  (IndexMap.insert inner record_id
                    (RecordStatus.validated
                      ⟨L.entries.length, registry_index⟩)).1).1,
                log_leafs := (IndexMap.insert s.log_leafs registry_index
                  ⟨log_id, record_id⟩).1 }, ?_, ?_,
              ⟨(IndexMap.insert inner record_id (RecordStatus.validated
                  ⟨L.entries.length, registry_index⟩)).1, ?_, ?_⟩, ?_⟩
      · simp [commit_operator_record, hinner, hrec, hL.symm, hv]
      · exact IndexMap.get?_insert_self ..
      · exact IndexMap.get?_insert_self ..
      · exact IndexMap.get?_insert_self ..
      · exact IndexMap.get?_insert_self ..
    · intro v msg hv
      refine ⟨{ s with
                operators := (IndexMap.insert s.operators log_id L).1,
                records := (IndexMap.insert s.records log_id
                  (IndexMap.insert inner record_id
                    (RecordStatus.rejected (.operator env
                      (DataStoreError.validationFailed msg).description))).1).1 },
              ?_,
              (IndexMap.insert inner record_id
                (RecordStatus.rejected (.operator env
                  (DataStoreError.validationFailed msg).description))).1, ?_, ?_⟩
      · simp [commit_operator_record, hinner, hrec, hL.symm, hv]
      · exact IndexMap.get?_insert_self ..
      · exact IndexMap.get?_insert_self ..
  · intro env missing hrec
    set L := (IndexMap.get? s.packages log_id).getD Log.init with hL
    constructor
    · intro v st hv
      refine ⟨{ s with
                packages := (IndexMap.insert s.packages log_id
                  ⟨st, L.entries ++ [⟨registry_index, env⟩]⟩).1,
                records := (IndexMap.insert s.records log_id
                  (IndexMap.insert inner record_id
                    (RecordStatus.validated
                      ⟨L.entries.length, registry_index⟩)).1).1,
                log_leafs := (IndexMap.insert s.log_leafs registry_index
                  ⟨log_id, record_id⟩).1 }, ?_, ?_,
              ⟨(IndexMap.insert inner record_id (RecordStatus.validated
                  ⟨L.entries.length, registry_index⟩)).1, ?_, ?_⟩, ?_⟩
      · simp [commit_package_record, hinner, hrec, hL.symm, hv]
      · exact IndexMap.get?_insert_self ..
      · exact IndexMap.get?_insert_self ..
      · exact IndexMap.get?_insert_self ..
      · exact IndexMap.get?_insert_self ..
    · intro v msg hv
      refine ⟨{ s with
                packages := (IndexMap.insert s.packages log_id L).1,
                records := (IndexMap.insert s.records log_id
                  (IndexMap.insert inner record_id
                    (RecordStatus.rejected (.package env
                      (DataStoreError.validationFailed msg).description))).1).1 },
              ?_,
              (IndexMap.insert inner record_id
                (RecordStatus.rejected (.package env
                  (DataStoreError.validationFailed msg).description))).1, ?_, ?_⟩
      · simp [commit_package_record, hinner, hrec, hL.symm, hv]
      · exact IndexMap.get?_insert_self ..
      · exact IndexMap.get?_insert_self ..

/-- Closed witness for `c1_commit_runs_validate_with_dual_effect`: committing
a freshly submitted record with a succeeding validator yields `ok` and a leaf
at the registry index; with a failing validator it returns the validation
error, for both variants. -/
theorem c1_witness :
    (∃ s', commit_operator_record (fun st e => .ok (st + e))
        (store_operator_record State.empty 1 2 3).1 1 2 9 = (s', .ok ()) ∧
      IndexMap.get? s'.log_leafs 9 = some ⟨1, 2⟩) ∧
    (∃ s', commit_operator_record (fun _ _ => .error "boom")
        (store_operator_record State.empty 1 2 3).1 1 2 9
        = (s', .err (.validationFailed "boom"))) ∧
    (∃ s', commit_package_record (fun st e => .ok (st + e))
        (store_package_record State.empty 1 7 2 3 []).1 1 2 9 = (s', .ok ()) ∧
      IndexMap.get? s'.log_leafs 9 = some ⟨1, 2⟩) ∧
    (∃ s', commit_package_record (fun _ _ => .error "boom")
        (store_package_record State.empty 1 7 2 3 []).1 1 2 9
        = (s', .err (.validationFailed "boom"))) := by
  have hop := (c1_commit_runs_validate_with_dual_effect
    (store_operator_record State.empty 1 2 3).1 1 2 9
    [(2, .pending (.operator (some 3)))] (by decide)).1 3 (by decide)
  have hpk := (c1_commit_runs_validate_with_dual_effect
    (store_package_record State.empty 1 7 2 3 []).1 1 2 9
    [(2, .pending (.package (some 3) []))] (by decide)).2 3 [] (by decide)
  obtain ⟨s1, h1, _, _, h1leaf⟩ := hop.1 (fun st e => .ok (st + e)) 3 rfl
  obtain ⟨s2, h2, _⟩ := hop.2 (fun _ _ => .error "boom") "boom" rfl
  obtain ⟨s3, h3, _, _, h3leaf⟩ := hpk.1 (fun st e => .ok (st + e)) 3 rfl
  obtain ⟨s4, h4, _⟩ := hpk.2 (fun _ _ => .error "boom") "boom" rfl
  exact ⟨⟨s1, h1, h1leaf⟩, ⟨s2, h2⟩, ⟨s3, h3, h3leaf⟩, ⟨s4, h4⟩⟩

/-- C3: for a record stored as Validated with registry index `r`,
`get_record` reports Published exactly when `r` is strictly below the
`log_length` of the latest stored checkpoint (`published_length`; `0` when
no checkpoint is stored, so the status stays Validated then), and in either
case the view carries the envelope of the record's log entry and the
registry index `r`.  Stated for both variants. -/
theorem c3_validated_published_iff_covered (s : State) (log_id : LogId)
    (record_id : RecordId) (i : Nat) (r : RegistryIndex) (env : Nat)
    (e' : RegistryIndex) :
    (∀ inner (L : Log OperatorLogState OperatorEnvelope),
      IndexMap.get? s.records log_id = some inner →
      IndexMap.get? inner record_id = some (.validated ⟨i, r⟩) →
      IndexMap.get? s.operators log_id = some L →
      L.entries[i]? = some ⟨e', env⟩ →
      ∃ st, get_operator_record s log_id record_id = .ok ⟨st, env, some r⟩ ∧
        (st = .published ↔ r < published_length s) ∧
        (st = .published ∨ st = .validated) ∧
        (s.checkpoints = [] → st = .validated)) ∧
    (∀ inner (L : Log PackageLogState PackageEnvelope),
      IndexMap.get? s.records log_id = some inner →
      IndexMap.get? inner record_id = some (.validated ⟨i, r⟩) →
      IndexMap.get? s.packages log_id = some L →
      L.entries[i]? = some ⟨e', env⟩ →
      ∃ st, get_package_record s log_id record_id = .ok ⟨st, env, some r⟩ ∧
        (st = .published ↔ r < published_length s) ∧
        (st = .published ∨ st = .validated) ∧
        (s.checkpoints = [] → st = .validated)) := by
  constructor <;> intro inner L hinner hrec hL hentry
  · refine ⟨if r < published_length s then .published else .validated, ?_, ?_, ?_, ?_⟩
    · simp [get_operator_record, hinner, hrec, hL, hentry]
    · by_cases hr : r < published_length s <;> simp [hr]
    · by_cases hr : r < published_length s <;> simp [hr]
    · intro hck
      have : published_length s = 0 := by simp [published_length, hck]
      simp [this]
  · refine ⟨if r < published_length s then .published else .validated, ?_, ?_, ?_, ?_⟩
    · simp [get_package_record, hinner, hrec, hL, hentry]
    · by_cases hr : r < published_length s <;> simp [hr]
    · by_cases hr : r < published_length s <;> simp [hr]
    · intro hck
      have : published_length s = 0 := by simp [published_length, hck]
      simp [this]

/-- Closed witness for `c3_validated_published_iff_covered`: in `c3state`
(registry index 4, latest checkpoint length 6) both views are Published. -/
theorem c3_witness :
    (∃ st, get_operator_record c3state 1 2 = .ok ⟨st, 99, some 4⟩ ∧
      (st = .published ↔ 4 < published_length c3state) ∧
      (st = .published ∨ st = .validated) ∧
      (c3state.checkpoints = [] → st = .validated)) ∧
    (∃ st, get_package_record c3state 1 2 = .ok ⟨st, 88, some 4⟩ ∧
      (st = .published ↔ 4 < published_length c3state) ∧
      (st = .published ∨ st = .validated) ∧
      (c3state.checkpoints = [] → st = .validated)) :=
  ⟨(c3_validated_published_iff_covered c3state 1 2 0 4 99 4).1
      [(2, .validated ⟨0, 4⟩)] ⟨5, [⟨4, 99⟩]⟩ (by decide) (by decide) (by decide) rfl,
   (c3_validated_published_iff_covered c3state 1 2 0 4 88 4).2
      [(2, .validated ⟨0, 4⟩)] ⟨5, [⟨4, 88⟩]⟩ (by decide) (by decide) (by decide) rfl⟩

theorem paginate_mem_lt (entries : List (Entry Nat)) (start len limit : Nat) :
    ∀ p ∈ paginate entries start len limit, p.registry_index < len := by
  intro p hp
  have hp1 := List.mem_of_mem_take hp
  obtain ⟨e, he, rfl⟩ := List.mem_map.mp hp1
  have := List.mem_takeWhile_imp he
  simpa using this

theorem paginate_length_le (entries : List (Entry Nat)) (start len limit : Nat) :
    (paginate entries start len limit).length ≤ limit :=
  List.length_take_le _ _

/-- C5: for an existing log and a cutoff that is a stored checkpoint key,
`get_records` returns at most `limit` entries in local log order, all with
`registry_index < registry_log_length`; the page starts right after the
local index of the `since` record when that record exists and is Validated,
and at the beginning of the log in every other case.  Stated for both
variants. -/
theorem c5_get_records_cutoff_limit_and_since (s : State) (log_id : LogId)
    (len : RegistryLen) (since : Option RecordId) (limit : Nat) :
    (∀ L : Log OperatorLogState OperatorEnvelope,
      IndexMap.get? s.operators log_id = some L →
      IndexMap.containsKey s.checkpoints len = true →
      ∃ l, get_operator_records s log_id len since limit = .ok l ∧
        (∀ p ∈ l, p.registry_index < len) ∧
        l.length ≤ limit ∧
        (since = none → l = paginate L.entries 0 len limit) ∧
        (∀ sid, since = some sid →
          (∀ rec, (IndexMap.get? s.records log_id).bind
              (fun inner => IndexMap.get? inner sid)
              = some (.validated rec) →
            l = paginate L.entries (rec.index + 1) len limit) ∧
          ((¬ ∃ rec, (IndexMap.get? s.records log_id).bind
              (fun inner => IndexMap.get? inner sid)
              = some (.validated rec)) →
            l = paginate L.entries 0 len limit))) ∧
    (∀ L : Log PackageLogState PackageEnvelope,
      IndexMap.get? s.packages log_id = some L →
      IndexMap.containsKey s.checkpoints len = true →
      ∃ l, get_package_records s log_id len since limit = .ok l ∧
        (∀ p ∈ l, p.registry_index < len) ∧
        l.length ≤ limit ∧
        (since = none → l = paginate L.entries 0 len limit) ∧
        (∀ sid, since = some sid →
          (∀ rec, (IndexMap.get? s.records log_id).bind
              (fun inner => IndexMap.get? inner sid)
              = some (.validated rec) →
            l = paginate L.entries (rec.index + 1) len limit) ∧
          ((¬ ∃ rec, (IndexMap.get? s.records log_id).bind
              (fun inner => IndexMap.get? inner sid)
              = some (.validated rec)) →
            l = paginate L.entries 0 len limit))) := by
  constructor <;> intro L hL hcp
  · rcases since with _ | sid
    · refine ⟨paginate L.entries 0 len limit, ?_,
        paginate_mem_lt L.entries 0 len limit,
        paginate_length_le L.entries 0 len limit, fun _ => rfl, ?_⟩
      · simp [get_operator_records, hL, hcp, paginate]
      · intro sid h
        cases h
    · rcases hlook : (IndexMap.get? s.records log_id).bind
          (fun inner => IndexMap.get? inner sid) with _ | st
      · refine ⟨paginate L.entries 0 len limit, ?_,
          paginate_mem_lt L.entries 0 len limit,
          paginate_length_le L.entries 0 len limit, ?_, ?_⟩
        · simp [get_operator_records, hL, hcp, paginate, hlook]
        · intro h
          cases h
        · intro sid' hsid'
          obtain rfl : sid' = sid := (Option.some.inj hsid').symm
          refine ⟨?_, fun _ => rfl⟩
          intro rec hrec
          rw [hlook] at hrec
          cases hrec
      · cases st with
        | validated rec =>
          refine ⟨paginate L.entries (rec.index + 1) len limit, ?_,
            paginate_mem_lt L.entries (rec.index + 1) len limit,
            paginate_length_le L.entries (rec.index + 1) len limit, ?_, ?_⟩
          · simp [get_operator_records, hL, hcp, paginate, hlook]
          · intro h
            cases h
          · intro sid' hsid'
            obtain rfl : sid' = sid := (Option.some.inj hsid').symm
            constructor
            · intro rec' hrec'
              rw [hlook] at hrec'
              have h2 := Option.some.inj hrec'
              cases h2
              rfl
            · intro hno
              exact absurd ⟨rec, hlook⟩ hno
        | pending p =>
          refine ⟨paginate L.entries 0 len limit, ?_,
            paginate_mem_lt L.entries 0 len limit,
            paginate_length_le L.entries 0 len limit, ?_, ?_⟩
          · simp [get_operator_records, hL, hcp, paginate, hlook]
          · intro h
            cases h
          · intro sid' hsid'
            obtain rfl : sid' = sid := (Option.some.inj hsid').symm
            refine ⟨?_, fun _ => rfl⟩
            intro rec hrec
            rw [hlook] at hrec
            cases Option.some.inj hrec
        | rejected rj =>
          refine ⟨paginate L.entries 0 len limit, ?_,
            paginate_mem_lt L.entries 0 len limit,
            paginate_length_le L.entries 0 len limit, ?_, ?_⟩
          · simp [get_operator_records, hL, hcp, paginate, hlook]
          · intro h
            cases h
          · intro sid' hsid'
            obtain rfl : sid' = sid := (Option.some.inj hsid').symm
            refine ⟨?_, fun _ => rfl⟩
            intro rec hrec
            rw [hlook] at hrec
            cases Option.some.inj hrec
  · rcases since with _ | sid
    · refine ⟨paginate L.entries 0 len limit, ?_,
        paginate_mem_lt L.entries 0 len limit,
        paginate_length_le L.entries 0 len limit, fun _ => rfl, ?_⟩
      · simp [get_package_records, hL, hcp, paginate]
      · intro sid h
        cases h
    · rcases hlook : (IndexMap.get? s.records log_id).bind
          (fun inner => IndexMap.get? inner sid) with _ | st
      · refine ⟨paginate L.entries 0 len limit, ?_,
          paginate_mem_lt L.entries 0 len limit,
          paginate_length_le L.entries 0 len limit, ?_, ?_⟩
        · simp [get_package_records, hL, hcp, paginate, hlook]
        · intro h
          cases h
        · intro sid' hsid'
          obtain rfl : sid' = sid := (Option.some.inj hsid').symm
          refine ⟨?_, fun _ => rfl⟩
          intro rec hrec
          rw [hlook] at hrec
          cases hrec
      · cases st with
        | validated rec =>
          refine ⟨paginate L.entries (rec.index + 1) len limit, ?_,
            paginate_mem_lt L.entries (rec.index + 1) len limit,
            paginate_length_le L.entries (rec.index + 1) len limit, ?_, ?_⟩
          · simp [get_package_records, hL, hcp, paginate, hlook]
          · intro h
            cases h
          · intro sid' hsid'
            obtain rfl : sid' = sid := (Option.some.inj hsid').symm
            constructor
            · intro rec' hrec'
              rw [hlook] at hrec'
              have h2 := Option.some.inj hrec'
              cases h2
              rfl
            · intro hno
              exact absurd ⟨rec, hlook⟩ hno
        | pending p =>
          refine ⟨paginate L.entries 0 len limit, ?_,
            paginate_mem_lt L.entries 0 len limit,
            paginate_length_le L.entries 0 len limit, ?_, ?_⟩
          · simp [get_package_records, hL, hcp, paginate, hlook]
          · intro h
            cases h
          · intro sid' hsid'
            obtain rfl : sid' = sid := (Option.some.inj hsid').symm
            refine ⟨?_, fun _ => rfl⟩
            intro rec hrec
            rw [hlook] at hrec
            cases Option.some.inj hrec
        | rejected rj =>
          refine ⟨paginate L.entries 0 len limit, ?_,
            paginate_mem_lt L.entries 0 len limit,
            paginate_length_le L.entries 0 len limit, ?_, ?_⟩
          · simp [get_package_records, hL, hcp, paginate, hlook]
          · intro h
            cases h
          · intro sid' hsid'
            obtain rfl : sid' = sid := (Option.some.inj hsid').symm
            refine ⟨?_, fun _ => rfl⟩
            intro rec hrec
            rw [hlook] at hrec
            cases Option.some.inj hrec

/-- Closed witness for `c5_get_records_cutoff_limit_and_since`: the spec's
pagination example on `c5state` — entries at registry indices 10, 12, 15, 20,
cutoff 16: resuming after record 2 (local index 1) returns only the entry at
15; from the beginning, the entries at 10, 12, 15 (20 is excluded). -/
theorem c5_witness :
    get_operator_records c5state 9 16 (some 2) 10 = .ok [⟨13, 15⟩] ∧
    get_package_records c5state 9 16 none 10
      = .ok [⟨21, 10⟩, ⟨22, 12⟩, ⟨23, 15⟩] := by
  obtain ⟨l1, h1, _, _, _, hs⟩ :=
    (c5_get_records_cutoff_limit_and_since c5state 9 16 (some 2) 10).1
      ⟨4, [⟨10, 11⟩, ⟨12, 12⟩, ⟨15, 13⟩, ⟨20, 14⟩]⟩ (by decide) (by decide)
  obtain ⟨l2, h2, _, _, hn, _⟩ :=
    (c5_get_records_cutoff_limit_and_since c5state 9 16 none 10).2
      ⟨4, [⟨10, 21⟩, ⟨12, 22⟩, ⟨15, 23⟩, ⟨20, 24⟩]⟩ (by decide) (by decide)
  have e1 : l1 = paginate [⟨10, 11⟩, ⟨12, 12⟩, ⟨15, 13⟩, ⟨20, 14⟩] 2 16 10 :=
    (hs 2 rfl).1 ⟨1, 12⟩ (by decide)
  have e2 : l2 = paginate [⟨10, 21⟩, ⟨12, 22⟩, ⟨15, 23⟩, ⟨20, 24⟩] 0 16 10 :=
    hn rfl
  rw [e1] at h1
  rw [e2] at h2
  exact ⟨h1.trans (by decide), h2.trans (by decide)⟩

theorem setAllPresent_empties (log_id : LogId) (record_id : RecordId)
    (M : List AnyHash) :
    ∀ (cur : List AnyHash) (s : State) (inner : IndexMap RecordId RecordStatus)
      (rec : Option PackageEnvelope),
      M ≠ [] → M.Nodup → List.Perm cur M →
      IndexMap.get? s.records log_id = some inner →
      IndexMap.get? inner record_id = some (.pending (.package rec cur)) →
      ∃ s', setAllPresent s log_id record_id M = (s', .ok true) ∧
        ∃ inner', IndexMap.get? s'.records log_id = some inner' ∧
          IndexMap.get? inner' record_id = some (.pending (.package rec [])) := by
  induction M with
  | nil => intro cur s inner rec hne; exact absurd rfl hne
  | cons d rest ih =>
    intro cur s inner rec _ hnd hperm hinner hrec
    have hd : d ∈ cur := hperm.mem_iff.mpr (List.Mem.head _)
    have hem : cur.isEmpty = false := by
      cases cur with
      | nil => cases hd
      | cons a l => rfl
    have hset : set_content_present s log_id record_id d
        = ({ s with records := (IndexMap.insert s.records log_id
              (IndexMap.insert inner record_id
                (RecordStatus.pending (.package rec (swapRemove cur d)))).1).1 },
           .ok (swapRemove cur d).isEmpty) := by
      simp [set_content_present, hinner, hrec, hem]
    have hperm' : List.Perm (swapRemove cur d) rest := swapRemove_perm_of_perm hperm
    cases rest with
    | nil =>
      have hcur' : swapRemove cur d = [] := hperm'.eq_nil
      refine ⟨{ s with records := (IndexMap.insert s.records log_id
          (IndexMap.insert inner record_id
            (RecordStatus.pending (.package rec (swapRemove cur d)))).1).1 },
        ?_, ?_⟩
      · show setAllPresent s log_id record_id [d] = _
        rw [setAllPresent, hset, hcur']
        rfl
      · exact ⟨_, IndexMap.get?_insert_self .., by
          rw [IndexMap.get?_insert_self, hcur']⟩
    | cons d2 rest2 =>
      have hstep : setAllPresent s log_id record_id (d :: d2 :: rest2)
          = setAllPresent (set_content_present s log_id record_id d).1
              log_id record_id (d2 :: rest2) := rfl
      rw [hstep, hset]
      exact ih (swapRemove cur d) _ _ rec (by simp)
        ((List.nodup_cons.mp hnd).2) hperm' (IndexMap.get?_insert_self ..)
        (IndexMap.get?_insert_self ..)

/-- C6: for a Pending package record with missing digest set `M` (a set: no
duplicates), `is_content_missing d` is true exactly when `d ∈ M`;
`set_content_present d` removes `d` from the set and returns whether the
resulting set is now empty; calling it once per member of `M` makes the
last call return true, after which every `is_content_missing` call returns
false.  For a Pending operator record both operations report false. -/
theorem c6_content_tracking (s : State) (log_id : LogId) (record_id : RecordId) :
    (∀ inner rec M, IndexMap.get? s.records log_id = some inner →
       IndexMap.get? inner record_id = some (.pending (.package rec M)) →
       M.Nodup →
       ((∀ d, is_content_missing s log_id record_id d = .ok true ↔ d ∈ M) ∧
        (∀ d, is_content_missing s log_id record_id d = .ok false ↔ d ∉ M) ∧
        (∀ d, d ∈ M →
          ∃ s' M', set_content_present s log_id record_id d
              = (s', .ok M'.isEmpty) ∧
            (∃ inner', IndexMap.get? s'.records log_id = some inner' ∧
               IndexMap.get? inner' record_id
                 = some (.pending (.package rec M'))) ∧
            (∀ x, x ∈ M' ↔ x ∈ M ∧ x ≠ d) ∧
            M'.length = M.length - 1) ∧
        (M ≠ [] → ∃ s', setAllPresent s log_id record_id M = (s', .ok true) ∧
           ∀ d, is_content_missing s' log_id record_id d = .ok false))) ∧
    (∀ inner rec, IndexMap.get? s.records log_id = some inner →
       IndexMap.get? inner record_id = some (.pending (.operator rec)) →
       ∀ d, is_content_missing s log_id record_id d = .ok false ∧
         set_content_present s log_id record_id d = (s, .ok false)) := by
  constructor
  · intro inner rec M hinner hrec hnd
    refine ⟨?_, ?_, ?_, ?_⟩
    · intro d
      simp [is_content_missing, hinner, hrec]
    · intro d
      simp [is_content_missing, hinner, hrec]
    · intro d hd
      have hem : M.isEmpty = false := by
        cases M with
        | nil => cases hd
        | cons a l => rfl
      refine ⟨{ s with records := (IndexMap.insert s.records log_id
          (IndexMap.insert inner record_id
            (RecordStatus.pending (.package rec (swapRemove M d)))).1).1 },
        swapRemove M d, ?_,
        ⟨(IndexMap.insert inner record_id
            (RecordStatus.pending (.package rec (swapRemove M d)))).1,
          IndexMap.get?_insert_self .., IndexMap.get?_insert_self ..⟩,
        mem_swapRemove hnd hd, swapRemove_length hd⟩
      simp [set_content_present, hinner, hrec, hem]
    · intro hne
      obtain ⟨s', hrun, inner', hinner', hrec'⟩ :=
        setAllPresent_empties log_id record_id M M s inner rec hne hnd
          (List.Perm.refl M) hinner hrec
      refine ⟨s', hrun, ?_⟩
      intro d
      simp [is_content_missing, hinner', hrec']
  · intro inner rec hinner hrec d
    constructor
    · simp [is_content_missing, hinner, hrec]
    · simp [set_content_present, hinner, hrec]

/-- Closed witness for `c6_content_tracking`: a package record submitted with
missing digests `[5, 6]` reports 5 missing and 9 not missing; processing
both digests makes the last call return true and later checks false; an
operator record reports false for both operations. -/
theorem c6_witness :
    is_content_missing (store_package_record State.empty 1 7 2 3 [5, 6]).1 1 2 5
      = .ok true ∧
    is_content_missing (store_package_record State.empty 1 7 2 3 [5, 6]).1 1 2 9
      = .ok false ∧
    (∃ s', setAllPresent (store_package_record State.empty 1 7 2 3 [5, 6]).1 1 2 [5, 6]
        = (s', .ok true) ∧
      is_content_missing s' 1 2 6 = .ok false) ∧
    is_content_missing (store_operator_record State.empty 1 2 3).1 1 2 5 = .ok false ∧
    set_content_present (store_operator_record State.empty 1 2 3).1 1 2 5
      = ((store_operator_record State.empty 1 2 3).1, .ok false) := by
  obtain ⟨ha, hb, _, hrun⟩ :=
    (c6_content_tracking (store_package_record State.empty 1 7 2 3 [5, 6]).1 1 2).1
      [(2, .pending (.package (some 3) [5, 6]))] (some 3) [5, 6]
      (by decide) (by decide) (by decide)
  obtain ⟨s', hr, hf⟩ := hrun (by decide)
  have hop :=
    (c6_content_tracking (store_operator_record State.empty 1 2 3).1 1 2).2
      [(2, .pending (.operator (some 3)))] (some 3) (by decide) (by decide) 5
  exact ⟨(ha 5).mpr (by decide), (hb 9).mpr (by decide), ⟨s', hr, hf 6⟩,
    hop.1, hop.2⟩

theorem collectLeafs_spec (m : IndexMap RegistryIndex LogLeaf) :
    ∀ (cnt : Nat) (start : Nat),
      (∀ k, k < cnt → (IndexMap.get? m (start + k)).isSome = true) →
      (collectLeafs m start cnt).length = cnt ∧
      ∀ k, k < cnt → ∃ leaf, IndexMap.get? m (start + k) = some leaf ∧
        (collectLeafs m start cnt)[k]? = some (start + k, leaf) := by
  intro cnt
  induction cnt with
  | zero => intro start h; exact ⟨rfl, fun k hk => absurd hk (by omega)⟩
  | succ n ihn =>
    intro start h
    have h0 : (IndexMap.get? m start).isSome = true := by
      simpa using h 0 (by omega)
    obtain ⟨leaf, hleaf⟩ := Option.isSome_iff_exists.mp h0
    have hrest : ∀ k, k < n → (IndexMap.get? m (start + 1 + k)).isSome = true := by
      intro k hk
      have := h (k + 1) (by omega)
      rwa [show start + (k + 1) = start + 1 + k by omega] at this
    obtain ⟨hlen, hspec⟩ := ihn (start + 1) hrest
    have hcol : collectLeafs m start (n + 1)
        = (start, leaf) :: collectLeafs m (start + 1) n := by
      simp [collectLeafs, hleaf]
    constructor
    · rw [hcol]
      simp [hlen]
    · intro k hk
      cases k with
      | zero =>
        refine ⟨leaf, by simpa using hleaf, ?_⟩
        rw [hcol]
        simp
      | succ j =>
        obtain ⟨leaf', h1, h2⟩ := hspec j (by omega)
        refine ⟨leaf', ?_, ?_⟩
        · rwa [show start + (j + 1) = start + 1 + j by omega]
        · rw [hcol, show start + (j + 1) = start + 1 + j by omega]
          simpa using h2

theorem get_log_leafs_all_present (s : State) :
    ∀ indices : List RegistryIndex,
      (∀ i ∈ indices, (IndexMap.get? s.log_leafs i).isSome = true) →
      ∃ l, get_log_leafs_with_registry_index s indices = .ok l ∧
        l.length = indices.length ∧
        ∀ (k : Nat) (i : RegistryIndex), indices[k]? = some i →
          ∃ leaf, IndexMap.get? s.log_leafs i = some leaf ∧ l[k]? = some leaf := by
  intro indices
  induction indices with
  | nil =>
    intro _
    refine ⟨[], rfl, rfl, ?_⟩
    intro k i hk
    simp at hk
  | cons e rest ih =>
    intro h
    obtain ⟨leaf, hleaf⟩ :=
      Option.isSome_iff_exists.mp (h e (List.mem_cons_self e rest))
    obtain ⟨l, hl, hlen, hspec⟩ := ih (fun i hi => h i (List.mem_cons_of_mem _ hi))
    refine ⟨leaf :: l, ?_, by simp [hlen], ?_⟩
    · simp [get_log_leafs_with_registry_index, hleaf, hl]
    · intro k i hk
      cases k with
      | zero =>
        simp at hk
        subst hk
        exact ⟨leaf, hleaf, by simp⟩
      | succ j =>
        simp at hk
        obtain ⟨leaf', h1, h2⟩ := hspec j i hk
        exact ⟨leaf', h1, by simpa using h2⟩

theorem get_log_leafs_missing_fails (s : State) :
    ∀ indices : List RegistryIndex,
      (∃ j, j ∈ indices ∧ IndexMap.get? s.log_leafs j = none) →
      ∃ j', get_log_leafs_with_registry_index s indices
          = .err (.logLeafNotFound j') ∧
        j' ∈ indices ∧ IndexMap.get? s.log_leafs j' = none := by
  intro indices
  induction indices with
  | nil =>
    rintro ⟨j, hj, _⟩
    cases hj
  | cons e rest ih =>
    rintro ⟨j, hj, hnone⟩
    by_cases he : IndexMap.get? s.log_leafs e = none
    · exact ⟨e, by simp [get_log_leafs_with_registry_index, he],
        List.mem_cons_self e rest, he⟩
    · obtain ⟨leafe, hleafe⟩ := Option.ne_none_iff_exists'.mp he
      have hjrest : j ∈ rest := by
        cases hj with
        | head => exact absurd hnone he
        | tail _ h => exact h
      obtain ⟨j', hj', hmem, hn⟩ := ih ⟨j, hjrest, hnone⟩
      refine ⟨j', ?_, List.mem_cons_of_mem _ hmem, hn⟩
      simp [get_log_leafs_with_registry_index, hleafe, hj']

/-- C8: the range form clamps `limit` to the leaves actually available from
`start` (when leaves occupy the contiguous registry indices
`0 .. log_leafs.len() - 1`) and returns the consecutive `(index, leaf)`
pairs from `start`; the explicit-index form returns exactly one leaf, the
one stored at that registry index, for every requested committed index, and
fails with `LogLeafNotFound` whenever some requested index was never
committed. -/
theorem c8_leaf_lookup (s : State) (start limit : Nat)
    (indices : List RegistryIndex) :
    (s.log_leafs.length < USIZE →
     start ≤ s.log_leafs.length →
     (∀ i, i < s.log_leafs.length → (IndexMap.get? s.log_leafs i).isSome = true) →
     ∃ l, get_log_leafs_starting_with_registry_index s start limit = .ok l ∧
       l.length = min limit (s.log_leafs.length - start) ∧
       ∀ k, k < l.length →
         ∃ leaf, IndexMap.get? s.log_leafs (start + k) = some leaf ∧
           l[k]? = some (start + k, leaf)) ∧
    ((∀ i ∈ indices, (IndexMap.get? s.log_leafs i).isSome = true) →
     ∃ l, get_log_leafs_with_registry_index s indices = .ok l ∧
       l.length = indices.length ∧
       ∀ (k : Nat) (i : RegistryIndex), indices[k]? = some i →
         ∃ leaf, IndexMap.get? s.log_leafs i = some leaf ∧ l[k]? = some leaf) ∧
    ((∃ j, j ∈ indices ∧ IndexMap.get? s.log_leafs j = none) →
     ∃ j', get_log_leafs_with_registry_index s indices
         = .err (.logLeafNotFound j') ∧
       j' ∈ indices ∧ IndexMap.get? s.log_leafs j' = none) := by
  refine ⟨?_, get_log_leafs_all_present s indices,
    get_log_leafs_missing_fails s indices⟩
  intro hU hstart hcontig
  have havail : (s.log_leafs.length + USIZE - start) % USIZE
      = s.log_leafs.length - start := by
    rw [show s.log_leafs.length + USIZE - start
          = (s.log_leafs.length - start) + USIZE by omega,
      Nat.add_mod_right, Nat.mod_eq_of_lt (by omega)]
  have hif : (if limit > s.log_leafs.length - start
      then s.log_leafs.length - start else limit)
      = min limit (s.log_leafs.length - start) := by
    split <;> omega
  have hcnt : ∀ k, k < min limit (s.log_leafs.length - start) →
      (IndexMap.get? s.log_leafs (start + k)).isSome = true := by
    intro k hk
    exact hcontig (start + k) (by omega)
  obtain ⟨hlen, hspec⟩ :=
    collectLeafs_spec s.log_leafs (min limit (s.log_leafs.length - start)) start hcnt
  refine ⟨collectLeafs s.log_leafs start (min limit (s.log_leafs.length - start)),
    ?_, hlen, ?_⟩
  · simp only [get_log_leafs_starting_with_registry_index, havail, hif]
  · intro k hk
    exact hspec k (by omega)

/-- Closed witness for `c8_leaf_lookup`: on `c8state` (leaves at 0, 1, 2)
the range form from index 1 with limit 5 clamps to the two available
leaves; the explicit form succeeds on `[0, 2]` and fails `LogLeafNotFound`
on `[0, 7]`. -/
theorem c8_witness :
    (∃ l, get_log_leafs_starting_with_registry_index c8state 1 5 = .ok l ∧
      l.length = min 5 (c8state.log_leafs.length - 1) ∧
      ∀ k, k < l.length →
        ∃ leaf, IndexMap.get? c8state.log_leafs (1 + k) = some leaf ∧
          l[k]? = some (1 + k, leaf)) ∧
    (∃ l, get_log_leafs_with_registry_index c8state [0, 2] = .ok l ∧
      l.length = ([0, 2] : List RegistryIndex).length ∧
      ∀ (k : Nat) (i : RegistryIndex), ([0, 2] : List RegistryIndex)[k]? = some i →
        ∃ leaf, IndexMap.get? c8state.log_leafs i = some leaf ∧ l[k]? = some leaf) ∧
    (∃ j', get_log_leafs_with_registry_index c8state [0, 7]
        = .err (.logLeafNotFound j') ∧
      j' ∈ ([0, 7] : List RegistryIndex) ∧
      IndexMap.get? c8state.log_leafs j' = none) :=
  ⟨(c8_leaf_lookup c8state 1 5 [0, 2]).1 (by decide) (by decide) (by decide),
   (c8_leaf_lookup c8state 1 5 [0, 2]).2.1 (by decide),
   (c8_leaf_lookup c8state 1 5 [0, 7]).2.2 ⟨7, by decide, by decide⟩⟩

end Registry
